import Mathlib

/-!
# denyuseragent: a user-agent deny filter

A shallow embedding of `denyuseragent.go` (package `traefik_plugin_example`).

* `Config`, `CreateConfig`, `Plugin`, `New`, `Plugin.ServeHTTP` follow the source
  line by line.
* The collaborators the source only calls are kept external: the user-agent
  parser `agent.Parse` is a parameter `Parse : String → UserAgent`, the downstream
  `http.Handler` is an arbitrary function on the observable world.
* The effects `ServeHTTP` performs (`log.Printf`, `rw.WriteHeader`,
  `p.next.ServeHTTP`) are returned as data, a list of `Action`s in program order,
  and `run` executes such a list against a response recorder and a log.
-/

namespace DenyUserAgent

/-! ## The pieces of `net/http` the source touches -/

/-- Go's `http.Header`, a `map[string][]string`, as an association list read by
its first binding of a key. -/
abbrev Header := List (String × List String)

/-- Go's `Header.Get`: the first value stored under `key`, and `""` when the key
is absent or holds no value. (`"User-Agent"` is already in canonical MIME form,
so the canonicalisation `Get` applies to its argument is the identity here.) -/
def Header.Get (h : Header) (key : String) : String :=
  match h.lookup key with
  | some (v :: _) => v
  | _ => ""

/-- Go's `*url.URL`, kept as the text its `String()` method renders. -/
structure URL where
  /-- The result of `u.String()`. -/
  String : String
deriving DecidableEq, Repr

/-- Go's `*http.Request`, with the fields a handler can tell requests apart by. -/
structure Request where
  Method : String
  URL : URL
  Header : Header
  Body : String
deriving DecidableEq, Repr

/-- The constant `http.StatusForbidden`. -/
def StatusForbidden : Nat := 403

/-- The constant `http.StatusTeapot`. -/
def StatusTeapot : Nat := 418

/-- The constant `http.StatusOK`. -/
def StatusOK : Nat := 200

/-- Go's `httptest.ResponseRecorder`, the response sink the tests hand to
`ServeHTTP`. -/
structure ResponseRecorder where
  Code : Nat
  HeaderMap : Header
  Body : String
  wroteHeader : Bool
deriving DecidableEq, Repr

/-- Go's `httptest.NewRecorder()`. -/
def NewRecorder : ResponseRecorder :=
  { Code := StatusOK, HeaderMap := [], Body := "", wroteHeader := false }

/-- The recorder's `WriteHeader`: the first status written wins. -/
def ResponseRecorder.WriteHeader (rw : ResponseRecorder) (code : Nat) : ResponseRecorder :=
  if rw.wroteHeader then rw else { rw with Code := code, wroteHeader := true }

/-- The recorder's `Write`: an implicit `WriteHeader(200)` when no status was
written yet, then the bytes are appended to the body. -/
def ResponseRecorder.Write (rw : ResponseRecorder) (buf : String) : ResponseRecorder :=
  let rw := rw.WriteHeader StatusOK
  { rw with Body := rw.Body ++ buf }

/-- The recorder's `Header().Set(key, value)`. -/
def ResponseRecorder.HeaderSet (rw : ResponseRecorder) (key value : String) : ResponseRecorder :=
  { rw with HeaderMap := (key, [value]) :: rw.HeaderMap.filter (fun kv => kv.1 != key) }

/-- What a handler can observe and change: the response sink and the lines
handed to the standard logger. -/
structure World where
  rw : ResponseRecorder
  log : List String
deriving DecidableEq, Repr

/-- Go's `http.Handler`: `ServeHTTP(rw, req)` as a transformer of the world. -/
abbrev Handler := Request → World → World

/-! ## The user-agent library -/

/-- The library's `UserAgent` result; `Name` is the only field this package
reads. -/
structure UserAgent where
  Name : String
deriving DecidableEq, Repr

/-! ## `denyuseragent.go` -/

/-- Config defines the plugin dynamic configuration. -/
structure Config where
  UserAgents : List String
deriving DecidableEq, Repr

/-- CreateConfig creates a new config: `&Config{}`, whose `UserAgents` is the nil
slice. -/
def CreateConfig : Config := { UserAgents := [] }

/-- Plugin is the traefik plugin implementation. `knownAgents` is a
`map[string]struct{}`, that is, a finite set of strings. -/
structure Plugin where
  next : Handler
  name : String
  knownAgents : Finset String

/-- The loop of `New`: `knownAgents[ka] = struct{}{}` for each `ka`, in order,
starting from the empty map. -/
def buildKnownAgents (userAgents : List String) : Finset String :=
  userAgents.foldl (fun knownAgents ka => insert ka knownAgents) ∅

/-- New creates plugin handler & return plugin instance. The Go result pair
`(http.Handler, error)` is a pair of options, `none` standing for `nil`; a nil
`cfg` pointer is `none`. -/
def New (next : Handler) (cfg : Option Config) (name : String) :
    Option Plugin × Option String :=
  match cfg with
  | none => (none, some "no UserAgent config provided")
  | some cfg =>
    (some { next := next, name := name, knownAgents := buildKnownAgents cfg.UserAgents }, none)

/-- One effect performed by `Plugin.ServeHTTP`, or by any handler writing to the
same sink. -/
inductive Action where
  /-- A call `log.Printf(...)`, carrying the formatted line. -/
  | logPrintf (line : String)
  /-- A call `rw.Header().Set(key, value)`. -/
  | rwHeaderSet (key value : String)
  /-- A call `rw.Write(buf)`. -/
  | rwWrite (buf : String)
  /-- A call `rw.WriteHeader(statusCode)`. -/
  | rwWriteHeader (statusCode : Nat)
  /-- A call `p.next.ServeHTTP(rw, req)`. -/
  | nextServeHTTP (req : Request)
deriving DecidableEq, Repr

/-- Go's `fmt.Sprintf` restricted to the verb `%s` with string arguments: each
`%s` is replaced by the next argument, every other character is copied. -/
def sprintfAux : List Char → List String → List Char
  | '%' :: 's' :: rest, a :: args => a.data ++ sprintfAux rest args
  | c :: rest, args => c :: sprintfAux rest args
  | [], _ => []

/-- See `sprintfAux`. -/
def Sprintf (format : String) (args : List String) : String :=
  ⟨sprintfAux format.data args⟩

/-- ServeHTTP implements http.Handler interface. The result is the receiver
after the call together with the effects performed, in program order. -/
def Plugin.ServeHTTP (Parse : String → UserAgent) (p : Plugin) (req : Request) :
    Plugin × List Action :=
  let getAgent := Parse (req.Header.Get "User-Agent")
  if getAgent.Name ∈ p.knownAgents then
    (p, [ Action.logPrintf
            (Sprintf "%s : %s - access denied - user agent is blocked: %s"
              [p.name, req.URL.String, getAgent.Name]),
          Action.rwWriteHeader StatusForbidden ])
  else
    (p, [ Action.nextServeHTTP req ])

/-! ## Executing effects -/

/-- Perform one action: logger and sink calls act on the world, a downstream
call hands the current world and the request to `next`. -/
def Action.exec (next : Handler) (w : World) : Action → World
  | .logPrintf line => { w with log := w.log ++ [line] }
  | .rwHeaderSet key value => { w with rw := w.rw.HeaderSet key value }
  | .rwWrite buf => { w with rw := w.rw.Write buf }
  | .rwWriteHeader statusCode => { w with rw := w.rw.WriteHeader statusCode }
  | .nextServeHTTP req => next req w

/-- Perform a list of actions from left to right. -/
def run (next : Handler) (actions : List Action) (w : World) : World :=
  actions.foldl (Action.exec next) w

/-- The plugin as an `http.Handler`: the effects of `ServeHTTP`, executed with
the plugin's own `next`. -/
def Plugin.Handle (Parse : String → UserAgent) (p : Plugin) : Handler :=
  fun req w => run p.next (p.ServeHTTP Parse req).2 w

/-- Serve a sequence of requests one after the other on the same receiver,
collecting all effects. -/
def Plugin.ServeAll (Parse : String → UserAgent) (p : Plugin) :
    List Request → Plugin × List Action
  | [] => (p, [])
  | req :: reqs =>
    let r := p.ServeHTTP Parse req
    let rs := Plugin.ServeAll Parse r.1 reqs
    (rs.1, r.2 ++ rs.2)

/-! ## Observations on effect lists -/

/-- The lines logged by a list of actions. -/
def diagnostics : List Action → List String
  | [] => []
  | .logPrintf line :: rest => line :: diagnostics rest
  | _ :: rest => diagnostics rest

/-- The status codes written to the sink by a list of actions. -/
def statusWrites : List Action → List Nat
  | [] => []
  | .rwWriteHeader statusCode :: rest => statusCode :: statusWrites rest
  | _ :: rest => statusWrites rest

/-- The body chunks written to the sink by a list of actions. -/
def bodyWrites : List Action → List String
  | [] => []
  | .rwWrite buf :: rest => buf :: bodyWrites rest
  | _ :: rest => bodyWrites rest

/-- The response headers set on the sink by a list of actions. -/
def headerWrites : List Action → List (String × String)
  | [] => []
  | .rwHeaderSet key value :: rest => (key, value) :: headerWrites rest
  | _ :: rest => headerWrites rest

/-- The requests handed to the downstream handler by a list of actions. -/
def nextCalls : List Action → List Request
  | [] => []
  | .nextServeHTTP req :: rest => req :: nextCalls rest
  | _ :: rest => nextCalls rest

/-- The filter rejects: it writes status 403 and makes no downstream call. -/
def Rejects (actions : List Action) : Prop :=
  StatusForbidden ∈ statusWrites actions ∧ nextCalls actions = []

/-- The filter delegates: it makes a downstream call and writes no status 403. -/
def Delegates (actions : List Action) : Prop :=
  nextCalls actions ≠ [] ∧ StatusForbidden ∉ statusWrites actions

instance (actions : List Action) : Decidable (Rejects actions) := by
  unfold Rejects; infer_instance

instance (actions : List Action) : Decidable (Delegates actions) := by
  unfold Delegates; infer_instance

/-! ## Fixtures of `denyuseragent_test.go` -/

/-- The test's `pluginName`. -/
def pluginName : String := "userAgentBlocker"

/-- The test's `noopHandler`: `rw.WriteHeader(http.StatusTeapot)`. -/
def noopHandler : Handler :=
  fun _ w => { w with rw := w.rw.WriteHeader StatusTeapot }

/-- The header text the tests send as a Googlebot. -/
def googlebotUA : String :=
  "Mozilla/5.0 AppleWebKit/537.36 (KHTML, like Gecko; compatible; Googlebot/2.1; +http://www.google.com/bot.html) Chrome/W.X.Y.Z Safari/537.36"

/-- The test's `httptest.NewRequest(http.MethodGet, "/foobar", nil)`: no header,
no body. -/
def testRequest : Request :=
  { Method := "GET", URL := ⟨"/foobar"⟩, Header := [], Body := "" }

/-- The test's request after `req.Header.Set("User-Agent", googlebotUA)`. -/
def googlebotRequest : Request :=
  { testRequest with Header := [("User-Agent", [googlebotUA])] }

/-- A fresh recorder and an empty log. -/
def freshWorld : World := { rw := NewRecorder, log := [] }

/-- A stand-in for `agent.Parse` used at concrete inputs. It agrees with the
library on the two header values evaluated below: the tests' Googlebot header
resolves to `"Googlebot"` (the `ForbiddenUserAgent` test depends on it), and the
empty string, which has no token to name, resolves to the empty name. Any other
text is returned as its own name. -/
def stubParse (userAgent : String) : UserAgent :=
  if userAgent = googlebotUA then { Name := "Googlebot" } else { Name := userAgent }

/-- What the tests' `New(context.Background(), noopHandler{}, cfg, pluginName)`
returns for a configuration listing `userAgents`. -/
def testPlugin (userAgents : List String) : Plugin :=
  { next := noopHandler, name := pluginName, knownAgents := buildKnownAgents userAgents }

/-- A request unlike `googlebotRequest` in method, URL, body and other headers,
carrying the same `User-Agent` value. -/
def otherGooglebotRequest : Request :=
  { Method := "POST", URL := ⟨"https://example.org/admin?x=1"⟩,
    Header := [("Accept", ["*/*"]), ("User-Agent", [googlebotUA, "second"]), ("X-Trace", ["7"])],
    Body := "payload" }

/-! ## Lemmas on the embedding -/

theorem foldl_insert_mem (userAgents : List String) (acc : Finset String) (x : String) :
    x ∈ userAgents.foldl (fun knownAgents ka => insert ka knownAgents) acc ↔
      x ∈ acc ∨ x ∈ userAgents := by
  induction userAgents generalizing acc with
  | nil => simp
  | cons ka rest ih =>
    simp only [List.foldl_cons, ih, Finset.mem_insert, List.mem_cons]
    tauto

theorem mem_buildKnownAgents (userAgents : List String) (x : String) :
    x ∈ buildKnownAgents userAgents ↔ x ∈ userAgents := by
  simp [buildKnownAgents, foldl_insert_mem]

theorem buildKnownAgents_congr (L1 L2 : List String) (hsame : ∀ x, x ∈ L1 ↔ x ∈ L2) :
    buildKnownAgents L1 = buildKnownAgents L2 := by
  ext x
  rw [mem_buildKnownAgents, mem_buildKnownAgents]
  exact hsame x

theorem Sprintf_line (a b c : String) :
    Sprintf "%s : %s - access denied - user agent is blocked: %s" [a, b, c]
      = a ++ " : " ++ b ++ " - access denied - user agent is blocked: " ++ c := by
  apply String.ext
  simp [Sprintf, sprintfAux, String.data_append]

theorem Header_Get_of_lookup_none (h : Header) (key : String) (habsent : h.lookup key = none) :
    h.Get key = "" := by
  simp [Header.Get, habsent]

theorem ServeHTTP_of_mem (Parse : String → UserAgent) (p : Plugin) (req : Request)
    (hmem : (Parse (req.Header.Get "User-Agent")).Name ∈ p.knownAgents) :
    p.ServeHTTP Parse req =
      (p, [ Action.logPrintf
              (p.name ++ " : " ++ req.URL.String ++ " - access denied - user agent is blocked: "
                ++ (Parse (req.Header.Get "User-Agent")).Name),
            Action.rwWriteHeader StatusForbidden ]) := by
  simp [Plugin.ServeHTTP, hmem, Sprintf_line]

theorem ServeHTTP_of_not_mem (Parse : String → UserAgent) (p : Plugin) (req : Request)
    (hnot : (Parse (req.Header.Get "User-Agent")).Name ∉ p.knownAgents) :
    p.ServeHTTP Parse req = (p, [ Action.nextServeHTTP req ]) := by
  simp [Plugin.ServeHTTP, hnot]

theorem rejects_iff (Parse : String → UserAgent) (p : Plugin) (req : Request) :
    Rejects (p.ServeHTTP Parse req).2 ↔
      (Parse (req.Header.Get "User-Agent")).Name ∈ p.knownAgents := by
  by_cases hmem : (Parse (req.Header.Get "User-Agent")).Name ∈ p.knownAgents
  · simp [ServeHTTP_of_mem Parse p req hmem, hmem, Rejects, statusWrites, nextCalls]
  · simp [ServeHTTP_of_not_mem Parse p req hmem, hmem, Rejects, statusWrites, nextCalls]

theorem delegates_iff (Parse : String → UserAgent) (p : Plugin) (req : Request) :
    Delegates (p.ServeHTTP Parse req).2 ↔
      (Parse (req.Header.Get "User-Agent")).Name ∉ p.knownAgents := by
  by_cases hmem : (Parse (req.Header.Get "User-Agent")).Name ∈ p.knownAgents
  · simp [ServeHTTP_of_mem Parse p req hmem, hmem, Delegates, statusWrites, nextCalls]
  · simp [ServeHTTP_of_not_mem Parse p req hmem, hmem, Delegates, statusWrites, nextCalls]

theorem ServeHTTP_fst (Parse : String → UserAgent) (p : Plugin) (req : Request) :
    (p.ServeHTTP Parse req).1 = p := by
  by_cases hmem : (Parse (req.Header.Get "User-Agent")).Name ∈ p.knownAgents
  · rw [ServeHTTP_of_mem Parse p req hmem]
  · rw [ServeHTTP_of_not_mem Parse p req hmem]

theorem ServeAll_fst (Parse : String → UserAgent) (p : Plugin) (reqs : List Request) :
    (p.ServeAll Parse reqs).1 = p := by
  induction reqs generalizing p with
  | nil => rfl
  | cons req rest ih =>
    simp only [Plugin.ServeAll]
    rw [ih, ServeHTTP_fst]

/-! ## The claims -/

/-- C1: for every non-nil configuration with name list `L`, every downstream
handler, every filter name and every request, `New` yields a filter, and that
filter rejects the request (writes 403, makes no downstream call) exactly when the
name the resolver gives for the request's `User-Agent` value is an element of `L`,
and delegates exactly when it is not. Membership is equality of strings, so the
list `["googlebot"]` does not reject a request whose resolved name is
`"Googlebot"`. The resolver `Parse` is arbitrary. -/
theorem New_ServeHTTP_rejects_iff_mem (Parse : String → UserAgent) (L : List String)
    (next : Handler) (name : String) (req : Request) :
    (∃ p, New next (some { UserAgents := L }) name = (some p, none) ∧
      (Rejects (p.ServeHTTP Parse req).2 ↔ (Parse (req.Header.Get "User-Agent")).Name ∈ L) ∧
      (Delegates (p.ServeHTTP Parse req).2 ↔
        (Parse (req.Header.Get "User-Agent")).Name ∉ L)) ∧
    (∃ p, New next (some { UserAgents := ["googlebot"] }) name = (some p, none) ∧
      ¬ Rejects (p.ServeHTTP (fun _ => { Name := "Googlebot" }) req).2 ∧
      Delegates (p.ServeHTTP (fun _ => { Name := "Googlebot" }) req).2) := by
  refine ⟨⟨_, rfl, ?_, ?_⟩, ⟨_, rfl, ?_, ?_⟩⟩
  · rw [rejects_iff, mem_buildKnownAgents]
  · rw [delegates_iff, mem_buildKnownAgents]
  · rw [rejects_iff, mem_buildKnownAgents]
    decide
  · rw [delegates_iff, mem_buildKnownAgents]
    decide

/-- C2: `New` returns an error exactly when the configuration pointer is nil, and
returns a nil handler exactly then; the error case returns both at once. For every
non-nil configuration it returns a filter and a nil error, in particular for the
configuration of `CreateConfig` and for one with an empty `UserAgents` list. -/
theorem New_error_iff_nil (next : Handler) (cfg : Option Config) (name : String) :
    ((New next cfg name).2 ≠ none ↔ cfg = none) ∧
    ((New next cfg name).1 = none ↔ cfg = none) ∧
    New next none name = (none, some "no UserAgent config provided") ∧
    (∀ c : Config, New next (some c) name =
      (some { next := next, name := name, knownAgents := buildKnownAgents c.UserAgents }, none)) ∧
    New next (some CreateConfig) name =
      (some { next := next, name := name, knownAgents := ∅ }, none) ∧
    New next (some { UserAgents := [] }) name =
      (some { next := next, name := name, knownAgents := ∅ }, none) := by
  refine ⟨?_, ?_, rfl, fun _ => rfl, rfl, rfl⟩ <;> cases cfg <;> simp [New]

/-- C3: when the name resolved for a request is in the filter's denylist,
`ServeHTTP` makes exactly one status write, of 403, writes no body bytes, sets no
response header and makes no downstream call. Executed on any world, its sink is
the given sink after `WriteHeader(403)`; on a sink with no status written yet the
status is 403 with body and headers untouched, and on a fresh recorder the
response is status 403 with empty body and no headers. Replacing the downstream
handler, for instance by the tests' 418 handler, changes nothing. -/
theorem ServeHTTP_blocked_writes_403 (Parse : String → UserAgent) (p : Plugin) (req : Request)
    (hblocked : (Parse (req.Header.Get "User-Agent")).Name ∈ p.knownAgents) :
    statusWrites (p.ServeHTTP Parse req).2 = [StatusForbidden] ∧
    bodyWrites (p.ServeHTTP Parse req).2 = [] ∧
    headerWrites (p.ServeHTTP Parse req).2 = [] ∧
    nextCalls (p.ServeHTTP Parse req).2 = [] ∧
    (∀ w : World, (p.Handle Parse req w).rw = w.rw.WriteHeader StatusForbidden) ∧
    (∀ w : World, w.rw.wroteHeader = false →
      (p.Handle Parse req w).rw.Code = 403 ∧
      (p.Handle Parse req w).rw.Body = w.rw.Body ∧
      (p.Handle Parse req w).rw.HeaderMap = w.rw.HeaderMap) ∧
    (p.Handle Parse req freshWorld).rw =
      { Code := 403, HeaderMap := [], Body := "", wroteHeader := true } ∧
    (∀ (next : Handler) (w : World),
      Plugin.Handle Parse { p with next := next } req w = p.Handle Parse req w) ∧
    (Plugin.Handle Parse { p with next := noopHandler } req freshWorld).rw.Code = 403 := by
  have hnext : ∀ next : Handler,
      (Parse (req.Header.Get "User-Agent")).Name ∈
        ({ p with next := next } : Plugin).knownAgents := fun _ => hblocked
  refine ⟨?_, ?_, ?_, ?_, ?_, ?_, ?_, ?_, ?_⟩
  · simp [ServeHTTP_of_mem Parse p req hblocked, statusWrites]
  · simp [ServeHTTP_of_mem Parse p req hblocked, bodyWrites]
  · simp [ServeHTTP_of_mem Parse p req hblocked, headerWrites]
  · simp [ServeHTTP_of_mem Parse p req hblocked, nextCalls]
  · intro w
    simp [Plugin.Handle, ServeHTTP_of_mem Parse p req hblocked, run, Action.exec]
  · intro w hw
    simp [Plugin.Handle, ServeHTTP_of_mem Parse p req hblocked, run, Action.exec,
      ResponseRecorder.WriteHeader, hw, StatusForbidden]
  · simp [Plugin.Handle, ServeHTTP_of_mem Parse p req hblocked, run, Action.exec,
      ResponseRecorder.WriteHeader, freshWorld, NewRecorder, StatusForbidden]
  · intro next w
    simp [Plugin.Handle, ServeHTTP_of_mem Parse p req hblocked,
      ServeHTTP_of_mem Parse _ req (hnext next), run, Action.exec]
  · simp [Plugin.Handle, ServeHTTP_of_mem Parse _ req (hnext noopHandler), run, Action.exec,
      ResponseRecorder.WriteHeader, freshWorld, NewRecorder, StatusForbidden]

/-- The tests' `ForbiddenUserAgent` case as an instance of C3. -/
theorem ServeHTTP_blocked_writes_403_witness :
    (stubParse (googlebotRequest.Header.Get "User-Agent")).Name ∈
        (testPlugin ["Googlebot"]).knownAgents ∧
      statusWrites ((testPlugin ["Googlebot"]).ServeHTTP stubParse googlebotRequest).2 = [403] ∧
      ((testPlugin ["Googlebot"]).Handle stubParse googlebotRequest freshWorld).rw =
        { Code := 403, HeaderMap := [], Body := "", wroteHeader := true } :=
  have h := ServeHTTP_blocked_writes_403 stubParse (testPlugin ["Googlebot"]) googlebotRequest
    (by decide)
  ⟨by decide, h.1, h.2.2.2.2.2.2.1⟩

/-- C4: when the name resolved for a request is not in the filter's denylist,
`ServeHTTP` makes exactly one downstream call, with the request it was given, and
nothing else: no log line, no status, body or header write. Executed on any world
the result is what the downstream handler alone produces on that world; with the
tests' stub handler on a fresh recorder the status is 418. -/
theorem ServeHTTP_allowed_delegates (Parse : String → UserAgent) (p : Plugin) (req : Request)
    (hallowed : (Parse (req.Header.Get "User-Agent")).Name ∉ p.knownAgents) :
    (p.ServeHTTP Parse req).2 = [Action.nextServeHTTP req] ∧
    nextCalls (p.ServeHTTP Parse req).2 = [req] ∧
    diagnostics (p.ServeHTTP Parse req).2 = [] ∧
    statusWrites (p.ServeHTTP Parse req).2 = [] ∧
    bodyWrites (p.ServeHTTP Parse req).2 = [] ∧
    headerWrites (p.ServeHTTP Parse req).2 = [] ∧
    (∀ w : World, p.Handle Parse req w = p.next req w) ∧
    (Plugin.Handle Parse { p with next := noopHandler } req freshWorld).rw.Code = 418 := by
  have hnext : (Parse (req.Header.Get "User-Agent")).Name ∉
      ({ p with next := noopHandler } : Plugin).knownAgents := hallowed
  refine ⟨?_, ?_, ?_, ?_, ?_, ?_, ?_, ?_⟩
  · rw [ServeHTTP_of_not_mem Parse p req hallowed]
  · simp [ServeHTTP_of_not_mem Parse p req hallowed, nextCalls]
  · simp [ServeHTTP_of_not_mem Parse p req hallowed, diagnostics]
  · simp [ServeHTTP_of_not_mem Parse p req hallowed, statusWrites]
  · simp [ServeHTTP_of_not_mem Parse p req hallowed, bodyWrites]
  · simp [ServeHTTP_of_not_mem Parse p req hallowed, headerWrites]
  · intro w
    simp [Plugin.Handle, ServeHTTP_of_not_mem Parse p req hallowed, run, Action.exec]
  · simp [Plugin.Handle, ServeHTTP_of_not_mem Parse _ req hnext, run, Action.exec,
      noopHandler, ResponseRecorder.WriteHeader, freshWorld, NewRecorder, StatusTeapot]

/-- The tests' `ValidUserAgent` case as an instance of C4. -/
theorem ServeHTTP_allowed_delegates_witness :
    (stubParse (googlebotRequest.Header.Get "User-Agent")).Name ∉
        (testPlugin ["SpamBot"]).knownAgents ∧
      nextCalls ((testPlugin ["SpamBot"]).ServeHTTP stubParse googlebotRequest).2
        = [googlebotRequest] ∧
      ((testPlugin ["SpamBot"]).Handle stubParse googlebotRequest freshWorld).rw.Code = 418 :=
  have h := ServeHTTP_allowed_delegates stubParse (testPlugin ["SpamBot"]) googlebotRequest
    (by decide)
  ⟨by decide, h.2.1, h.2.2.2.2.2.2.2⟩

/-- C5: a filter built by `New` from a configuration with an empty `UserAgents`
list delegates every request, whatever its headers, the resolver and the
downstream handler: one downstream call with the request, no status write, and on
any world the result is the downstream handler's. -/
theorem New_empty_always_delegates (Parse : String → UserAgent) (next : Handler)
    (name : String) (req : Request) :
    ∃ p, New next (some { UserAgents := [] }) name = (some p, none) ∧
      New next (some CreateConfig) name = (some p, none) ∧
      Delegates (p.ServeHTTP Parse req).2 ∧
      ¬ Rejects (p.ServeHTTP Parse req).2 ∧
      nextCalls (p.ServeHTTP Parse req).2 = [req] ∧
      statusWrites (p.ServeHTTP Parse req).2 = [] ∧
      ∀ w : World, p.Handle Parse req w = next req w := by
  have hnot : (Parse (req.Header.Get "User-Agent")).Name ∉
      (Plugin.mk next name (buildKnownAgents [])).knownAgents := by
    simp [buildKnownAgents]
  refine ⟨_, rfl, rfl, ?_, ?_, ?_, ?_, ?_⟩
  · exact (delegates_iff Parse _ req).2 hnot
  · exact fun hrej => hnot ((rejects_iff Parse _ req).1 hrej)
  · simp [ServeHTTP_of_not_mem Parse _ req hnot, nextCalls]
  · simp [ServeHTTP_of_not_mem Parse _ req hnot, statusWrites]
  · intro w
    simp [Plugin.Handle, ServeHTTP_of_not_mem Parse _ req hnot, run, Action.exec]

/-- C6, as stated, fails: the tests' request carries no `User-Agent` header, the
configuration `[""]` is accepted by `New`, the empty header value resolves to the
empty name, and the filter rejects: status 403 from a downstream handler that
would have answered 418, no downstream call. So it is not the case that every
filter delegates every request without the header. -/
theorem no_header_rejected_by_empty_name :
    testRequest.Header.lookup "User-Agent" = none ∧
    New noopHandler (some { UserAgents := [""] }) pluginName = (some (testPlugin [""]), none) ∧
    Rejects ((testPlugin [""]).ServeHTTP stubParse testRequest).2 ∧
    ¬ Delegates ((testPlugin [""]).ServeHTTP stubParse testRequest).2 ∧
    nextCalls ((testPlugin [""]).ServeHTTP stubParse testRequest).2 = [] ∧
    ((testPlugin [""]).Handle stubParse testRequest freshWorld).rw.Code = 403 ∧
    ¬ (∀ (Parse : String → UserAgent) (p : Plugin) (req : Request),
        req.Header.lookup "User-Agent" = none → Delegates (p.ServeHTTP Parse req).2) := by
  refine ⟨by decide, rfl, by decide, by decide, by decide, by decide, ?_⟩
  intro hall
  exact absurd (hall stubParse (testPlugin [""]) testRequest (by decide)) (by decide)

/-- C6, amended: for every filter and every request that carries no `User-Agent`
header, the header value read is the empty string and the call ends in one of the
two outcomes; it delegates exactly when the name resolved from the empty string is
not in the denylist, and rejects with 403 exactly when it is. -/
theorem ServeHTTP_no_header (Parse : String → UserAgent) (p : Plugin) (req : Request)
    (habsent : req.Header.lookup "User-Agent" = none) :
    req.Header.Get "User-Agent" = "" ∧
    (Delegates (p.ServeHTTP Parse req).2 ∨ Rejects (p.ServeHTTP Parse req).2) ∧
    (Delegates (p.ServeHTTP Parse req).2 ↔ (Parse "").Name ∉ p.knownAgents) ∧
    (Rejects (p.ServeHTTP Parse req).2 ↔ (Parse "").Name ∈ p.knownAgents) ∧
    ((Parse "").Name ∉ p.knownAgents → ∀ w : World, p.Handle Parse req w = p.next req w) := by
  have hget : req.Header.Get "User-Agent" = "" :=
    Header_Get_of_lookup_none req.Header "User-Agent" habsent
  have hd := delegates_iff Parse p req
  have hr := rejects_iff Parse p req
  rw [hget] at hd hr
  refine ⟨hget, ?_, hd, hr, ?_⟩
  · by_cases hmem : (Parse "").Name ∈ p.knownAgents
    · exact Or.inr (hr.2 hmem)
    · exact Or.inl (hd.2 hmem)
  · intro hnot w
    have hnot2 : (Parse (req.Header.Get "User-Agent")).Name ∉ p.knownAgents := by
      rw [hget]; exact hnot
    simp [Plugin.Handle, ServeHTTP_of_not_mem Parse p req hnot2, run, Action.exec]

/-- The tests' header-less request on a filter denying `"Googlebot"`: an instance
of the amended C6 that delegates. -/
theorem ServeHTTP_no_header_witness :
    testRequest.Header.lookup "User-Agent" = none ∧
      testRequest.Header.Get "User-Agent" = "" ∧
      Delegates ((testPlugin ["Googlebot"]).ServeHTTP stubParse testRequest).2 :=
  have h := ServeHTTP_no_header stubParse (testPlugin ["Googlebot"]) testRequest (by decide)
  ⟨by decide, h.1, h.2.2.1.2 (by decide)⟩

/-- C7: two non-nil configurations whose lists hold the same names (equal lists,
permutations, lists differing in repetitions), built with the same downstream
handler and any filter names, give filters with equal denylists that, for every
request, agree on rejecting, agree on delegating, and leave the same response in
the sink on every world; built with the same filter name as well, the two filters
are equal. -/
theorem New_set_semantics (Parse : String → UserAgent) (L1 L2 : List String) (next : Handler)
    (name1 name2 : String) (hsame : ∀ x, x ∈ L1 ↔ x ∈ L2) :
    ∃ p1 p2, New next (some { UserAgents := L1 }) name1 = (some p1, none) ∧
      New next (some { UserAgents := L2 }) name2 = (some p2, none) ∧
      p1.knownAgents = p2.knownAgents ∧
      (∀ req : Request,
        (Rejects (p1.ServeHTTP Parse req).2 ↔ Rejects (p2.ServeHTTP Parse req).2) ∧
        (Delegates (p1.ServeHTTP Parse req).2 ↔ Delegates (p2.ServeHTTP Parse req).2) ∧
        ∀ w : World, (p1.Handle Parse req w).rw = (p2.Handle Parse req w).rw) ∧
      (name1 = name2 → p1 = p2) := by
  have hk : buildKnownAgents L1 = buildKnownAgents L2 := buildKnownAgents_congr L1 L2 hsame
  refine ⟨_, _, rfl, rfl, hk, ?_, ?_⟩
  · intro req
    refine ⟨?_, ?_, ?_⟩
    · rw [rejects_iff, rejects_iff]
      simp only [hk]
    · rw [delegates_iff, delegates_iff]
      simp only [hk]
    · intro w
      by_cases hmem : (Parse (req.Header.Get "User-Agent")).Name ∈ buildKnownAgents L2
      · have h1 : (Parse (req.Header.Get "User-Agent")).Name ∈
            (Plugin.mk next name1 (buildKnownAgents L1)).knownAgents := by
          simpa only [hk] using hmem
        have h2 : (Parse (req.Header.Get "User-Agent")).Name ∈
            (Plugin.mk next name2 (buildKnownAgents L2)).knownAgents := hmem
        simp [Plugin.Handle, ServeHTTP_of_mem Parse _ req h1, ServeHTTP_of_mem Parse _ req h2,
          run, Action.exec]
      · have h1 : (Parse (req.Header.Get "User-Agent")).Name ∉
            (Plugin.mk next name1 (buildKnownAgents L1)).knownAgents := by
          simpa only [hk] using hmem
        have h2 : (Parse (req.Header.Get "User-Agent")).Name ∉
            (Plugin.mk next name2 (buildKnownAgents L2)).knownAgents := hmem
        simp [Plugin.Handle, ServeHTTP_of_not_mem Parse _ req h1,
          ServeHTTP_of_not_mem Parse _ req h2, run, Action.exec]
  · intro hname
    rw [hname, hk]

/-- A list with a repeated name in one order against its two names in the other
order: an instance of C7. -/
theorem New_set_semantics_witness :
    (∀ x, x ∈ ["Googlebot", "SpamBot", "Googlebot"] ↔ x ∈ ["SpamBot", "Googlebot"]) ∧
      ∃ p1 p2,
        New noopHandler (some { UserAgents := ["Googlebot", "SpamBot", "Googlebot"] }) pluginName
          = (some p1, none) ∧
        New noopHandler (some { UserAgents := ["SpamBot", "Googlebot"] }) pluginName
          = (some p2, none) ∧
        p1.knownAgents = p2.knownAgents ∧
        (p1.Handle stubParse googlebotRequest freshWorld).rw
          = (p2.Handle stubParse googlebotRequest freshWorld).rw :=
  have hsame :
      ∀ x, x ∈ ["Googlebot", "SpamBot", "Googlebot"] ↔ x ∈ ["SpamBot", "Googlebot"] := by
    intro x
    simp only [List.mem_cons, List.mem_singleton, List.not_mem_nil, or_false]
    tauto
  have h := New_set_semantics stubParse ["Googlebot", "SpamBot", "Googlebot"]
    ["SpamBot", "Googlebot"] noopHandler pluginName pluginName hsame
  ⟨hsame, h.elim fun p1 h1 => h1.elim fun p2 h2 =>
    ⟨p1, p2, h2.1, h2.2.1, h2.2.2.1, (h2.2.2.2.1 googlebotRequest).2.2 freshWorld⟩⟩

/-- C8: `ServeHTTP` returns its receiver unchanged, field by field (downstream
handler, name, denylist), for every request; so after any sequence of prior
requests the receiver is the one started from, and the effects and the decision
for a request are those of the filter before any request was served. -/
theorem ServeHTTP_no_mutation (Parse : String → UserAgent) (p : Plugin)
    (prior : List Request) (req : Request) :
    (p.ServeHTTP Parse req).1 = p ∧
    (p.ServeHTTP Parse req).1.knownAgents = p.knownAgents ∧
    (p.ServeHTTP Parse req).1.name = p.name ∧
    (p.ServeHTTP Parse req).1.next = p.next ∧
    (p.ServeAll Parse prior).1 = p ∧
    ((p.ServeAll Parse prior).1.ServeHTTP Parse req).2 = (p.ServeHTTP Parse req).2 ∧
    (Rejects ((p.ServeAll Parse prior).1.ServeHTTP Parse req).2 ↔
      Rejects (p.ServeHTTP Parse req).2) ∧
    (Delegates ((p.ServeAll Parse prior).1.ServeHTTP Parse req).2 ↔
      Delegates (p.ServeHTTP Parse req).2) ∧
    (p.ServeAll Parse (prior ++ [req])).2 =
      (p.ServeAll Parse prior).2 ++ (p.ServeHTTP Parse req).2 := by
  have h1 := ServeHTTP_fst Parse p req
  have h2 := ServeAll_fst Parse p prior
  refine ⟨h1, by rw [h1], by rw [h1], by rw [h1], h2, by rw [h2], by rw [h2], by rw [h2], ?_⟩
  clear h1 h2
  induction prior generalizing p with
  | nil => simp [Plugin.ServeAll]
  | cons r rest ih =>
    have hstep : (p.ServeAll Parse (r :: (rest ++ [req]))).2 =
        (p.ServeHTTP Parse r).2 ++ ((p.ServeHTTP Parse r).1.ServeAll Parse (rest ++ [req])).2 := rfl
    have hprior : (p.ServeAll Parse (r :: rest)).2 =
        (p.ServeHTTP Parse r).2 ++ ((p.ServeHTTP Parse r).1.ServeAll Parse rest).2 := rfl
    rw [List.cons_append, hstep, hprior, ServeHTTP_fst, ih, List.append_assoc]

/-- C9: a rejected request produces exactly one log line, the filter name, the
request URL and the matched agent name joined as
`<name> : <url> - access denied - user agent is blocked: <agent>`, and exactly one
status write, of 403; a delegated request produces no log line and no write of
status, body or header by the filter. Every request is one or the other. -/
theorem ServeHTTP_side_effect_counts (Parse : String → UserAgent) (p : Plugin) (req : Request) :
    (Rejects (p.ServeHTTP Parse req).2 ∨ Delegates (p.ServeHTTP Parse req).2) ∧
    (Rejects (p.ServeHTTP Parse req).2 →
      diagnostics (p.ServeHTTP Parse req).2 =
        [p.name ++ " : " ++ req.URL.String ++ " - access denied - user agent is blocked: "
          ++ (Parse (req.Header.Get "User-Agent")).Name] ∧
      (diagnostics (p.ServeHTTP Parse req).2).length = 1 ∧
      statusWrites (p.ServeHTTP Parse req).2 = [StatusForbidden] ∧
      (statusWrites (p.ServeHTTP Parse req).2).length = 1 ∧
      (Parse (req.Header.Get "User-Agent")).Name ∈ p.knownAgents) ∧
    (Delegates (p.ServeHTTP Parse req).2 →
      diagnostics (p.ServeHTTP Parse req).2 = [] ∧
      statusWrites (p.ServeHTTP Parse req).2 = [] ∧
      bodyWrites (p.ServeHTTP Parse req).2 = [] ∧
      headerWrites (p.ServeHTTP Parse req).2 = []) ∧
    diagnostics ((testPlugin ["Googlebot"]).ServeHTTP stubParse googlebotRequest).2 =
      ["userAgentBlocker : /foobar - access denied - user agent is blocked: Googlebot"] := by
  refine ⟨?_, ?_, ?_, by decide⟩
  · by_cases hmem : (Parse (req.Header.Get "User-Agent")).Name ∈ p.knownAgents
    · exact Or.inl ((rejects_iff Parse p req).2 hmem)
    · exact Or.inr ((delegates_iff Parse p req).2 hmem)
  · intro hrej
    have hmem := (rejects_iff Parse p req).1 hrej
    simp [ServeHTTP_of_mem Parse p req hmem, diagnostics, statusWrites, hmem]
  · intro hdel
    have hnot := (delegates_iff Parse p req).1 hdel
    simp [ServeHTTP_of_not_mem Parse p req hnot, diagnostics, statusWrites, bodyWrites,
      headerWrites]

/-- C10: for every filter, two requests with the same `User-Agent` header value
are both rejected or both delegated, however else they differ, and this holds
across a change of the filter's name and of its downstream handler. -/
theorem ServeHTTP_decision_depends_on_user_agent_only (Parse : String → UserAgent) (p : Plugin)
    (name2 : String) (next2 : Handler) (req1 req2 : Request)
    (hua : req1.Header.Get "User-Agent" = req2.Header.Get "User-Agent") :
    (Rejects (p.ServeHTTP Parse req1).2 ↔ Rejects (p.ServeHTTP Parse req2).2) ∧
    (Delegates (p.ServeHTTP Parse req1).2 ↔ Delegates (p.ServeHTTP Parse req2).2) ∧
    (Rejects (p.ServeHTTP Parse req1).2 ↔
      Rejects (Plugin.ServeHTTP Parse { p with name := name2, next := next2 } req2).2) ∧
    (Delegates (p.ServeHTTP Parse req1).2 ↔
      Delegates (Plugin.ServeHTTP Parse { p with name := name2, next := next2 } req2).2) := by
  refine ⟨?_, ?_, ?_, ?_⟩
  · rw [rejects_iff, rejects_iff, hua]
  · rw [delegates_iff, delegates_iff, hua]
  · rw [rejects_iff, rejects_iff, hua]
  · rw [delegates_iff, delegates_iff, hua]

/-- Two requests sharing only their `User-Agent` value, on filters differing in
name and downstream handler: an instance of C10. -/
theorem ServeHTTP_decision_depends_on_user_agent_only_witness :
    googlebotRequest.Header.Get "User-Agent" = otherGooglebotRequest.Header.Get "User-Agent" ∧
      googlebotRequest ≠ otherGooglebotRequest ∧
      (Rejects ((testPlugin ["Googlebot"]).ServeHTTP stubParse googlebotRequest).2 ↔
        Rejects (Plugin.ServeHTTP stubParse
          { testPlugin ["Googlebot"] with name := "other", next := fun _ w => w }
          otherGooglebotRequest).2) :=
  have h := ServeHTTP_decision_depends_on_user_agent_only stubParse (testPlugin ["Googlebot"])
    "other" (fun _ w => w) googlebotRequest otherGooglebotRequest (by decide)
  ⟨by decide, by decide, h.2.2.1⟩

end DenyUserAgent
